import Mathlib

/-!
Verification of the dipy streamline-registration core and two utility
modules, as a shallow embedding in Lean 4.

Numeric arrays are modelled over `ℝ` (points are `Fin 3 → ℝ`), 4×4
homogeneous transforms as `Matrix (Fin 4) (Fin 4) ℝ`, bundles as lists of
streamlines, and integer GUI quantities over `ℤ`.

The registration core (`dipy/align/streamwarp.py`) is not present in the
source tree, only its test suite; its operations are therefore modelled
from the specification, as marked in the doc comment of each such
definition.  `dipy/viz/horizon/util.py` and `dipy/core/gradients.py` are
present and embedded directly.
-/

noncomputable section

open scoped Matrix

/-- A 3D point, as in the numpy arrays of shape (3,). -/
abbrev Point : Type := Fin 3 → ℝ

/-- A streamline: an ordered sequence of 3D points. -/
abbrev Streamline : Type := List Point

/-- A bundle: an ordered collection of streamlines. -/
abbrev Bundle : Type := List Streamline

/-- A 4×4 homogeneous transform matrix. -/
abbrev Mat4 : Type := Matrix (Fin 4) (Fin 4) ℝ

/-- Degrees to radians, as the spec requires for the rotation parameters. -/
def rad (d : ℝ) : ℝ := d * Real.pi / 180

/-- Modelled from the spec: rotation about the x axis as a homogeneous
4×4 matrix (part of the missing `dipy/align/streamwarp.py`). -/
def rotX (θ : ℝ) : Mat4 :=
  !![1, 0, 0, 0;
     0, Real.cos θ, -Real.sin θ, 0;
     0, Real.sin θ, Real.cos θ, 0;
     0, 0, 0, 1]

/-- Modelled from the spec: rotation about the y axis as a homogeneous
4×4 matrix (part of the missing `dipy/align/streamwarp.py`). -/
def rotY (θ : ℝ) : Mat4 :=
  !![Real.cos θ, 0, Real.sin θ, 0;
     0, 1, 0, 0;
     -Real.sin θ, 0, Real.cos θ, 0;
     0, 0, 0, 1]

/-- Modelled from the spec: rotation about the z axis as a homogeneous
4×4 matrix (part of the missing `dipy/align/streamwarp.py`). -/
def rotZ (θ : ℝ) : Mat4 :=
  !![Real.cos θ, -Real.sin θ, 0, 0;
     Real.sin θ, Real.cos θ, 0, 0;
     0, 0, 1, 0;
     0, 0, 0, 1]

/-- Modelled from the spec: pure translation as a homogeneous 4×4 matrix
(part of the missing `dipy/align/streamwarp.py`). -/
def transMat (t : Fin 3 → ℝ) : Mat4 :=
  !![1, 0, 0, t 0;
     0, 1, 0, t 1;
     0, 0, 1, t 2;
     0, 0, 0, 1]

/-- Modelled from the spec: `matrix44` / `build_transform` in its rigid
six-parameter form `[tx, ty, tz, rx, ry, rz]` (translation in mm, angles
in degrees), producing `Translation ∘ Rz ∘ Ry ∘ Rx` with angles converted
to radians.  The twelve-parameter affine extension is not needed by any
claim and is omitted. -/
def matrix44 (p : Fin 6 → ℝ) : Mat4 :=
  transMat ![p 0, p 1, p 2] * rotZ (rad (p 5)) * rotY (rad (p 4)) * rotX (rad (p 3))

/-- The homogeneous lift of a 3D point: append a trailing 1. -/
def homog (p : Point) : Fin 4 → ℝ := ![p 0, p 1, p 2, 1]

/-- Drop the homogeneous coordinate of a 4-vector. -/
def dehomog (v : Fin 4 → ℝ) : Point := ![v 0, v 1, v 2]

/-- Modelled from the spec: apply a homogeneous transform to one point
(append 1, multiply by the matrix, drop the homogeneous coordinate). -/
def applyPt (M : Mat4) (p : Point) : Point :=
  dehomog (M.mulVec (homog p))

/-- Modelled from the spec: `transform_streamlines` / `apply_transform`
applies the transform to every point of every streamline, returning a new
bundle. -/
def transform_streamlines (b : Bundle) (M : Mat4) : Bundle :=
  b.map (fun s => s.map (applyPt M))

/-- Modelled from the spec: `center_streamlines` computes the centroid of
the union of all points of the bundle, subtracts it from every point and
returns the recentered bundle together with the subtracted shift. -/
def center_streamlines (b : Bundle) : Bundle × Point :=
  let pts : List Point := b.flatten
  let c : Point := fun i => (pts.map (fun p => p i)).sum / pts.length
  (b.map (fun s => s.map (fun p => fun i => p i - c i)), c)

/-- Modelled from the spec: `compose_transformations` of an ordered chain
`[A, B, C]` (A applied first) is the matrix product `C * B * A`. -/
def compose_transformations (l : List Mat4) : Mat4 :=
  l.foldl (fun acc M => M * acc) 1

/-- Euclidean distance between two 3D points. -/
def dist3 (p q : Point) : ℝ :=
  Real.sqrt (∑ i : Fin 3, (p i - q i) ^ 2)

/-- Modelled from the spec: the MDF-style distance between two streamlines
of the same fixed point count, the mean of per-index pointwise Euclidean
distances. -/
def avgDist (a b : Streamline) : ℝ :=
  (((a.zip b).map (fun pr => dist3 pr.1 pr.2)).sum) / a.length

end

/-- The error taxonomy of the registration core as the spec defines it. -/
inductive RegError : Type
  | SizeMismatch : RegError
  | NotFittedError : RegError
  deriving DecidableEq

noncomputable section

/-- Modelled from the spec: the sum-policy metric `mdf_optimization_sum`.
It requires equal bundle cardinalities (failing with `SizeMismatch`
otherwise), pairs streamlines index-for-index, and sums the per-pair mean
pointwise distances. -/
def mdf_optimization_sum (s m : Bundle) : Except RegError ℝ :=
  if s.length = m.length then
    Except.ok (((List.zip s m).map
      (fun pr => avgDist pr.1 pr.2)).sum)
  else
    Except.error RegError.SizeMismatch

/-- Minimum of a list of reals; the empty case does not arise in the
metric, which is only evaluated for nonempty static bundles. -/
def minOver (l : List ℝ) : ℝ :=
  match l with
  | [] => 0
  | x :: xs => xs.foldl min x

/-- Modelled from the spec: the min-policy metric `mdf_optimization_min`.
No cardinality requirement; for each moving streamline take the minimum
mean pointwise distance against every static streamline and accumulate
the sum of these minima. -/
def mdf_optimization_min (s m : Bundle) : ℝ :=
  (m.map (fun q => minOver (s.map (fun p => avgDist p q)))).sum

/-- The type of the external black-box derivative-free minimizer: it takes
an objective on six-parameter vectors and an initial guess, and returns a
parameter vector.  The driver treats it opaquely, so the façade theorems
hold for every such function. -/
abbrev Minimizer : Type := ((Fin 6 → ℝ) → ℝ) → (Fin 6 → ℝ) → (Fin 6 → ℝ)

/-- Modelled from the spec: the optimizer driver's objective function
`f(params) = metric(static, apply_transform(moving, build_transform(params)))`. -/
def objectiveFun (metric : Bundle → Bundle → ℝ) (static moving : Bundle) :
    (Fin 6 → ℝ) → ℝ :=
  fun params => metric static (transform_streamlines moving (matrix44 params))

/-- Modelled from the spec: the optimizer driver runs the minimizer on the
objective from the all-zero initial guess and returns the best parameters
found. -/
def optimalParams (opt : Minimizer) (metric : Bundle → Bundle → ℝ)
    (static moving : Bundle) : Fin 6 → ℝ :=
  opt (objectiveFun metric static moving) (fun _ => 0)

/-- Modelled from the spec: the `RegistrationResult` holding the fitted
4×4 matrix (the diagnostics of full-output mode play no role in the
claims under verification). -/
structure StreamlineRegistrationMap where
  matrix : Mat4

/-- Modelled from the spec: the fitted result applies its stored transform
to any bundle. -/
def StreamlineRegistrationMap.transform (r : StreamlineRegistrationMap)
    (b : Bundle) : Bundle :=
  transform_streamlines b r.matrix

/-- Modelled from the spec: the stateful registration object, holding the
metric, the black-box minimizer and the optional stored fit (`none` =
Unfit, `some` = Fit). -/
structure StreamlineRigidRegistration where
  metric : Bundle → Bundle → ℝ
  opt : Minimizer
  fit : Option StreamlineRegistrationMap

/-- Modelled from the spec: `optimize` runs the driver, builds the fitted
matrix and stores the fit on the object, returning the
`RegistrationResult` together with the updated (Fit-state) object. -/
def StreamlineRigidRegistration.optimize (srr : StreamlineRigidRegistration)
    (static moving : Bundle) :
    StreamlineRegistrationMap × StreamlineRigidRegistration :=
  let r : StreamlineRegistrationMap :=
    ⟨matrix44 (optimalParams srr.opt srr.metric static moving)⟩
  (r, { srr with fit := some r })

/-- Modelled from the spec: the stateful object's `transform` fails with
`NotFittedError` before any `optimize` call and otherwise applies the
stored fit's transform. -/
def StreamlineRigidRegistration.applyFit (srr : StreamlineRigidRegistration)
    (b : Bundle) : Except RegError Bundle :=
  match srr.fit with
  | none => Except.error RegError.NotFittedError
  | some r => Except.ok (r.transform b)

/-- Modelled from the spec: the one-shot functional façade
(`LinearRegistration(...).transform(static, moving)` in the tests):
optimize and directly apply the fitted transform to the moving bundle. -/
def linearTransform (opt : Minimizer) (metric : Bundle → Bundle → ℝ)
    (static moving : Bundle) : Bundle :=
  transform_streamlines moving (matrix44 (optimalParams opt metric static moving))

end

/-- From `dipy/viz/horizon/util.py`: `center_relative_value` subtracts
`mid = int((min_value + max_value) / 2)` from the value (Python `int` of a
float quotient truncates toward zero, which is `Int.tdiv` on integers). -/
def center_relative_value (value : ℤ) (value_range : ℤ × ℤ) : ℤ :=
  value - Int.tdiv (value_range.1 + value_range.2) 2

/-- From `dipy/viz/horizon/util.py`: `zero_relative_value` adds the same
`mid = int((min_value + max_value) / 2)` back to the value. -/
def zero_relative_value (value : ℤ) (value_range : ℤ × ℤ) : ℤ :=
  Int.tdiv (value_range.1 + value_range.2) 2 + value

noncomputable section

/-- From `dipy/core/gradients.py`: `L2norm` of one gradient row. -/
def L2norm (x : Fin 3 → ℝ) : ℝ :=
  Real.sqrt (∑ i : Fin 3, x i * x i)

/-- From `dipy/core/gradients.py`: `GradientTable.b0s_mask` for one row,
as the 0/1 numeric value numpy gives a boolean in arithmetic:
`bvals <= b0_threshold`. -/
def b0s_mask_row (g : Fin 3 → ℝ) (b0_threshold : ℝ) : ℝ :=
  if L2norm g ≤ b0_threshold then 1 else 0

/-- From `dipy/core/gradients.py`: the denominator `b0s_mask + bvals` used
to normalize one gradient row in `GradientTable.bvecs`. -/
def bvecs_denom_row (g : Fin 3 → ℝ) (b0_threshold : ℝ) : ℝ :=
  b0s_mask_row g b0_threshold + L2norm g

/-- From `dipy/core/gradients.py`: one row of `GradientTable.bvecs`, the
gradient row divided by its denominator. -/
def bvecs_row (g : Fin 3 → ℝ) (b0_threshold : ℝ) : Fin 3 → ℝ :=
  fun i => g i / bvecs_denom_row g b0_threshold

end

noncomputable section

/-- A concrete point at the origin, used in example bundles. -/
def C6p0 : Point := fun _ => 0

/-- A concrete point at Euclidean distance 5 from the origin. -/
def C6q0 : Point := ![5, 0, 0]

/-- A concrete one-streamline static bundle for the asymmetry example. -/
def C6static : Bundle := [[C6p0]]

/-- A concrete two-streamline moving bundle for the asymmetry example. -/
def C6moving : Bundle := [[C6q0], [C6p0]]

end

section helperLemmas

lemma rotX_zero : rotX 0 = 1 := by
  ext i j
  fin_cases i <;> fin_cases j <;>
    simp [rotX, Matrix.one_apply, Matrix.vecHead, Matrix.vecTail]

lemma rotY_zero : rotY 0 = 1 := by
  ext i j
  fin_cases i <;> fin_cases j <;>
    simp [rotY, Matrix.one_apply, Matrix.vecHead, Matrix.vecTail]

lemma rotZ_zero : rotZ 0 = 1 := by
  ext i j
  fin_cases i <;> fin_cases j <;>
    simp [rotZ, Matrix.one_apply, Matrix.vecHead, Matrix.vecTail]

lemma rad_zero : rad 0 = 0 := by simp [rad]

lemma transMat_mul (a b : Fin 3 → ℝ) :
    transMat a * transMat b = transMat (fun i => a i + b i) := by
  ext i j
  fin_cases i <;> fin_cases j <;>
    simp [transMat, Matrix.mul_apply, Fin.sum_univ_four,
      Matrix.vecHead, Matrix.vecTail] <;>
    ring

lemma transMat_eye : transMat ![0, 0, 0] = 1 := by
  ext i j
  fin_cases i <;> fin_cases j <;>
    simp [transMat, Matrix.one_apply, Matrix.vecHead, Matrix.vecTail]

lemma vec6_val_three {α : Type} (a b c d e f : α) : (![a, b, c, d, e, f]) 3 = d := rfl

lemma vec6_val_four {α : Type} (a b c d e f : α) : (![a, b, c, d, e, f]) 4 = e := rfl

lemma vec6_val_five {α : Type} (a b c d e f : α) : (![a, b, c, d, e, f]) 5 = f := rfl

lemma matrix44_translation (a b c : ℝ) :
    matrix44 ![a, b, c, 0, 0, 0] = transMat ![a, b, c] := by
  simp [matrix44, rad_zero, rotX_zero, rotY_zero, rotZ_zero,
    vec6_val_three, vec6_val_four, vec6_val_five]

lemma applyPt_transMat (t : Fin 3 → ℝ) (p : Point) :
    applyPt (transMat t) p = fun i => p i + t i := by
  funext i
  fin_cases i <;>
    simp [applyPt, transMat, homog, dehomog, Matrix.mulVec, Matrix.dotProduct,
      Fin.sum_univ_four, Matrix.vecHead, Matrix.vecTail]

lemma applyPt_one (p : Point) : applyPt (1 : Mat4) p = p := by
  funext i
  fin_cases i <;>
    simp [applyPt, homog, dehomog, Matrix.mulVec, Matrix.dotProduct,
      Matrix.one_apply, Fin.sum_univ_four, Matrix.vecHead, Matrix.vecTail]

lemma zip_map_sum {α β : Type} (f : α → β → ℝ) (da : α) (db : β) :
    ∀ (l₁ : List α) (l₂ : List β), l₁.length = l₂.length →
      ((l₁.zip l₂).map (fun pr => f pr.1 pr.2)).sum
        = ∑ i ∈ Finset.range l₁.length, f (l₁.getD i da) (l₂.getD i db) := by
  intro l₁
  induction l₁ with
  | nil => intro l₂ h; simp
  | cons a t ih =>
    intro l₂ h
    cases l₂ with
    | nil => simp at h
    | cons b t₂ =>
      simp only [List.zip_cons_cons, List.map_cons, List.sum_cons, List.length_cons]
      rw [Finset.sum_range_succ']
      simp only [List.getD_cons_succ, List.getD_cons_zero]
      rw [ih t₂ (by simpa using h)]
      ring

lemma foldl_min_le_init (xs : List ℝ) : ∀ x : ℝ, xs.foldl min x ≤ x := by
  induction xs with
  | nil => intro x; simp
  | cons a t ih =>
    intro x
    simpa using le_trans (ih (min x a)) (min_le_left x a)

lemma foldl_min_le_mem (xs : List ℝ) : ∀ x : ℝ, ∀ y ∈ xs, xs.foldl min x ≤ y := by
  induction xs with
  | nil => intro x y hy; simp at hy
  | cons a t ih =>
    intro x y hy
    rcases List.mem_cons.mp hy with h | h
    · subst h
      simpa using le_trans (foldl_min_le_init t (min x y)) (min_le_right x y)
    · simpa using ih (min x a) y h

lemma foldl_min_attained (xs : List ℝ) :
    ∀ x : ℝ, xs.foldl min x = x ∨ xs.foldl min x ∈ xs := by
  induction xs with
  | nil => intro x; left; rfl
  | cons a t ih =>
    intro x
    rcases ih (min x a) with h | h
    · rcases min_cases x a with ⟨he, _⟩ | ⟨he, _⟩
      · left; simpa [he] using h
      · right; simp only [List.foldl_cons]; rw [h, he]; exact List.mem_cons_self a t
    · right
      simp only [List.foldl_cons]
      exact List.mem_cons_of_mem a h

end helperLemmas

/-- C1: for every black-box minimizer, metric, transform kind (rigid) and
static/moving bundle pair, the three façade call shapes coincide exactly:
the one-shot functional transform, applying the matrix stored in the
result of the stateful object's optimize, and the fitted result's own
transform applied to the moving bundle. -/
theorem claim_C1 (opt : Minimizer) (metric : Bundle → Bundle → ℝ)
    (fit0 : Option StreamlineRegistrationMap) (static moving : Bundle) :
    linearTransform opt metric static moving
      = transform_streamlines moving
          ((StreamlineRigidRegistration.optimize ⟨metric, opt, fit0⟩ static moving).1.matrix) ∧
    (StreamlineRigidRegistration.optimize ⟨metric, opt, fit0⟩ static moving).1.transform moving
      = transform_streamlines moving
          ((StreamlineRigidRegistration.optimize ⟨metric, opt, fit0⟩ static moving).1.matrix) ∧
    (StreamlineRigidRegistration.optimize ⟨metric, opt, fit0⟩ static moving).2.applyFit moving
      = Except.ok (transform_streamlines moving
          ((StreamlineRigidRegistration.optimize ⟨metric, opt, fit0⟩ static moving).1.matrix)) :=
  ⟨rfl, rfl, rfl⟩

/-- C2: centering is losslessly invertible: applying the pure-translation
transform built from the reported shift to the recentered bundle
reconstructs the original bundle exactly. -/
theorem claim_C2 (b : Bundle) :
    transform_streamlines (center_streamlines b).1
      (matrix44 ![(center_streamlines b).2 0, (center_streamlines b).2 1,
                  (center_streamlines b).2 2, 0, 0, 0]) = b := by
  rw [matrix44_translation]
  have hv : (![(center_streamlines b).2 0, (center_streamlines b).2 1,
      (center_streamlines b).2 2] : Point) = (center_streamlines b).2 := by
    funext i; fin_cases i <;> rfl
  rw [hv]
  set c := (center_streamlines b).2 with hc
  have h1 : (center_streamlines b).1
      = b.map (fun s => s.map (fun p i => p i - c i)) := rfl
  rw [h1]
  unfold transform_streamlines
  rw [List.map_map]
  have h3 : (applyPt (transMat c) ∘ fun (p : Point) (i : Fin 3) => p i - c i)
      = fun p => p := by
    funext p
    simp only [Function.comp_apply, applyPt_transMat]
    funext i
    ring
  have h2 : ((fun s : Streamline => s.map (applyPt (transMat c)))
      ∘ fun s : Streamline => s.map (fun p i => p i - c i)) = fun s => s := by
    funext s
    simp only [Function.comp_apply, List.map_map, h3]
    simp
  rw [h2]
  simp

/-- C3: composing an ordered chain `[A, B, C]` yields the matrix product
`C * B * A` (A applied first), and the concrete pure-translation chain
of +10, then -20, then +10 along x composes to the exact 4×4 identity
matrix. -/
theorem claim_C3 :
    (∀ A B C : Mat4, compose_transformations [A, B, C] = C * B * A) ∧
    compose_transformations
      [transMat ![10, 0, 0], transMat ![-20, 0, 0], transMat ![10, 0, 0]] = 1 := by
  constructor
  · intro A B C
    simp [compose_transformations, mul_assoc]
  · have h : compose_transformations
        [transMat ![10, 0, 0], transMat ![-20, 0, 0], transMat ![10, 0, 0]]
        = transMat ![10, 0, 0] * (transMat ![-20, 0, 0] * transMat ![10, 0, 0]) := by
      simp [compose_transformations, mul_assoc]
    rw [h, transMat_mul, transMat_mul]
    ext i j
    fin_cases i <;> fin_cases j <;>
      simp [transMat, Matrix.one_apply, Matrix.vecHead, Matrix.vecTail]
    all_goals norm_num

/-- C4: on bundles of equal cardinality whose streamlines all have the
same fixed number k of points, the sum-policy metric succeeds and equals
the sum over index-paired streamlines of the mean per-index pointwise
Euclidean distance. -/
theorem claim_C4 (s m : Bundle) (k : ℕ)
    (hlen : s.length = m.length)
    (hs : ∀ a ∈ s, a.length = k) (hm : ∀ a ∈ m, a.length = k) :
    mdf_optimization_sum s m
      = Except.ok (∑ i ∈ Finset.range s.length,
          (∑ j ∈ Finset.range k,
            dist3 ((s.getD i []).getD j (fun _ => 0))
              ((m.getD i []).getD j (fun _ => 0))) / k) := by
  unfold mdf_optimization_sum
  rw [if_pos hlen]
  congr 1
  rw [zip_map_sum (fun a b => avgDist a b) [] [] s m hlen]
  apply Finset.sum_congr rfl
  intro i hi
  rw [Finset.mem_range] at hi
  have hilt : i < m.length := by omega
  have ha : s.getD i [] ∈ s := by
    rw [List.getD_eq_getElem s [] hi]
    exact List.getElem_mem hi
  have hb : m.getD i [] ∈ m := by
    rw [List.getD_eq_getElem m [] hilt]
    exact List.getElem_mem hilt
  have hak := hs _ ha
  have hbk := hm _ hb
  unfold avgDist
  rw [zip_map_sum dist3 (fun _ => 0) (fun _ => 0) (s.getD i []) (m.getD i [])
    (by rw [hak, hbk]), hak]

/-- C4 witness: the theorem applied to the concrete singleton bundles
`[[C6p0]]` and `[[C6q0]]` with one point per streamline. -/
theorem claim_C4_witness :
    (([[C6p0]] : Bundle).length = ([[C6q0]] : Bundle).length) ∧
    (∀ a ∈ ([[C6p0]] : Bundle), a.length = 1) ∧
    (∀ a ∈ ([[C6q0]] : Bundle), a.length = 1) ∧
    mdf_optimization_sum [[C6p0]] [[C6q0]]
      = Except.ok (∑ i ∈ Finset.range ([[C6p0]] : Bundle).length,
          (∑ j ∈ Finset.range 1,
            dist3 ((([[C6p0]] : Bundle).getD i []).getD j (fun _ => 0))
              ((([[C6q0]] : Bundle).getD i []).getD j (fun _ => 0))) / (1 : ℕ)) :=
  ⟨rfl, by simp, by simp,
    claim_C4 [[C6p0]] [[C6q0]] 1 rfl (by simp) (by simp)⟩

/-- C5: the sum-policy metric fails with SizeMismatch exactly when the two
bundles have unequal cardinality (raises-iff, no truncation or padding). -/
theorem claim_C5 (s m : Bundle) :
    mdf_optimization_sum s m = Except.error RegError.SizeMismatch
      ↔ s.length ≠ m.length := by
  unfold mdf_optimization_sum
  by_cases h : s.length = m.length <;> simp [h]

/-- C6: for every nonempty static bundle and arbitrary moving bundle, the
min-policy metric is the sum over moving streamlines of a per-streamline
value that is a true minimum over the static bundle of the mean per-index
pointwise distance (bounded below by, and attained at, some static
streamline); moreover the metric is asymmetric, as the concrete example
bundles show. -/
theorem claim_C6 :
    (∀ s m : Bundle, s ≠ [] →
      ∃ f : Streamline → ℝ,
        mdf_optimization_min s m = (m.map f).sum ∧
        ∀ q : Streamline,
          (∀ p ∈ s, f q ≤ avgDist p q) ∧ ∃ p ∈ s, f q = avgDist p q) ∧
    mdf_optimization_min C6static C6moving ≠ mdf_optimization_min C6moving C6static := by
  constructor
  · intro s m hs
    refine ⟨fun q => minOver (s.map (fun p => avgDist p q)), rfl, ?_⟩
    intro q
    obtain ⟨p₀, rest, rfl⟩ : ∃ p₀ rest, s = p₀ :: rest := by
      cases s with
      | nil => exact absurd rfl hs
      | cons a t => exact ⟨a, t, rfl⟩
    constructor
    · intro p hp
      rcases List.mem_cons.mp hp with h | h
      · subst h
        simpa [minOver] using
          foldl_min_le_init (rest.map (fun p => avgDist p q)) (avgDist p q)
      · have hmem : avgDist p q ∈ rest.map (fun p => avgDist p q) :=
          List.mem_map_of_mem _ h
        simpa [minOver] using
          foldl_min_le_mem (rest.map (fun p => avgDist p q)) (avgDist p₀ q)
            (avgDist p q) hmem
    · rcases foldl_min_attained (rest.map (fun p => avgDist p q)) (avgDist p₀ q)
        with h | h
      · exact ⟨p₀, List.mem_cons_self _ _, by simpa [minOver] using h⟩
      · rcases List.mem_map.mp h with ⟨p, hp, hpe⟩
        refine ⟨p, List.mem_cons_of_mem _ hp, ?_⟩
        simp only [List.map_cons, minOver]
        exact hpe.symm
  · have hd1 : dist3 C6p0 C6q0 = 5 := by
      have h25 : (∑ i : Fin 3, (C6p0 i - C6q0 i) ^ 2) = 25 := by
        simp [C6p0, C6q0, Fin.sum_univ_three]
        norm_num
      unfold dist3
      rw [h25, show (25 : ℝ) = 5 ^ 2 by norm_num]
      exact Real.sqrt_sq (by norm_num)
    have hd2 : dist3 C6q0 C6p0 = 5 := by
      have h25 : (∑ i : Fin 3, (C6q0 i - C6p0 i) ^ 2) = 25 := by
        simp [C6p0, C6q0, Fin.sum_univ_three]
        norm_num
      unfold dist3
      rw [h25, show (25 : ℝ) = 5 ^ 2 by norm_num]
      exact Real.sqrt_sq (by norm_num)
    have hd0 : dist3 C6p0 C6p0 = 0 := by
      have h0 : (∑ i : Fin 3, (C6p0 i - C6p0 i) ^ 2) = 0 := by
        simp [C6p0, Fin.sum_univ_three]
      unfold dist3
      rw [h0, Real.sqrt_zero]
    have ha1 : avgDist [C6p0] [C6q0] = 5 := by simp [avgDist, hd1]
    have ha2 : avgDist [C6q0] [C6p0] = 5 := by simp [avgDist, hd2]
    have ha0 : avgDist [C6p0] [C6p0] = 0 := by simp [avgDist, hd0]
    have hmin1 : mdf_optimization_min C6static C6moving = 5 := by
      simp [mdf_optimization_min, C6static, C6moving, minOver, ha1, ha0]
    have hmin2 : mdf_optimization_min C6moving C6static = 0 := by
      simp [mdf_optimization_min, C6static, C6moving, minOver, ha2, ha0]
    rw [hmin1, hmin2]
    norm_num

/-- C6 witness: the min-policy characterization applied to the concrete
nonempty static bundle of the asymmetry example. -/
theorem claim_C6_witness :
    C6static ≠ [] ∧
    ∃ f : Streamline → ℝ,
      mdf_optimization_min C6static C6moving = (C6moving.map f).sum ∧
      ∀ q : Streamline,
        (∀ p ∈ C6static, f q ≤ avgDist p q) ∧ ∃ p ∈ C6static, f q = avgDist p q :=
  ⟨by simp [C6static], claim_C6.1 C6static C6moving (by simp [C6static])⟩

/-- C7: the rigid transform built from the six-zero parameter vector is
exactly the 4×4 identity matrix, and applying it leaves every bundle
unchanged. -/
theorem claim_C7 :
    matrix44 ![0, 0, 0, 0, 0, 0] = 1 ∧
    ∀ b : Bundle, transform_streamlines b (matrix44 ![0, 0, 0, 0, 0, 0]) = b := by
  have h : matrix44 ![0, 0, 0, 0, 0, 0] = 1 := by
    rw [matrix44_translation]
    exact transMat_eye
  refine ⟨h, fun b => ?_⟩
  rw [h]
  have happ : applyPt (1 : Mat4) = fun p => p := funext applyPt_one
  unfold transform_streamlines
  simp [happ]

/-- C8: the stateful object follows the state machine Unfit to Fit: its
transform fails with NotFittedError at call time while no optimize has
been run, and after optimize it applies the stored fit's transform to any
bundle. -/
theorem claim_C8 :
    (∀ (metric : Bundle → Bundle → ℝ) (opt : Minimizer) (b : Bundle),
      StreamlineRigidRegistration.applyFit ⟨metric, opt, none⟩ b
        = Except.error RegError.NotFittedError) ∧
    (∀ (srr : StreamlineRigidRegistration) (static moving b : Bundle),
      (srr.optimize static moving).2.applyFit b
        = Except.ok (transform_streamlines b
            ((srr.optimize static moving).1.matrix))) :=
  ⟨fun _ _ _ => rfl, fun _ _ _ _ => rfl⟩

/-- C9: center_relative_value and zero_relative_value are exact mutual
inverses over the integers for every value and every value range, because
both use the same truncated midpoint. -/
theorem claim_C9 (v : ℤ) (r : ℤ × ℤ) :
    zero_relative_value (center_relative_value v r) r = v ∧
    center_relative_value (zero_relative_value v r) r = v := by
  unfold zero_relative_value center_relative_value
  constructor <;> ring

/-- C10: for every gradient row and every nonnegative b0 threshold, the
denominator `b0s_mask + bvals` used to compute bvecs is strictly positive,
so the row normalization never divides by zero. -/
theorem claim_C10 (g : Fin 3 → ℝ) (b0_threshold : ℝ) (h : 0 ≤ b0_threshold) :
    0 < bvecs_denom_row g b0_threshold := by
  unfold bvecs_denom_row b0s_mask_row
  have hn : 0 ≤ L2norm g := Real.sqrt_nonneg _
  by_cases hc : L2norm g ≤ b0_threshold
  · rw [if_pos hc]
    linarith
  · rw [if_neg hc]
    push_neg at hc
    linarith

/-- C10 witness: the denominator positivity applied to the zero gradient
row with threshold 0. -/
theorem claim_C10_witness :
    (0 : ℝ) ≤ 0 ∧ 0 < bvecs_denom_row (fun _ => 0) 0 :=
  ⟨le_refl 0, claim_C10 (fun _ => 0) 0 (le_refl 0)⟩

/-- C5 witness: at a concrete pair of bundles of cardinalities 1 and 0 the
sum-policy metric indeed fails with SizeMismatch. -/
theorem claim_C5_witness :
    mdf_optimization_sum [[C6p0]] [] = Except.error RegError.SizeMismatch :=
  (claim_C5 [[C6p0]] []).mpr (by simp)
